import Mathlib

/-!
Verification development for the mininet node/link/cleanup core.

The definitions below are a shallow embedding of the Python sources:

* `src/mininet/link.py` — `TCIntf.bwCmds`, `TCIntf.delayCmds`,
  `TCIntf.config`, `Link.__init__`, `Link.delete`;
* `src/mininet/linux/node.py` — `Intf.delete`;
* `src/mininet/openbsd/node.py` — `Node.getShell` routing-domain allocation;
* `src/mininet/clean.py` — `Cleanup.cleanup`, `Cleanup.addCleanupCallback`.

Python numbers are modelled as rationals, optional parameters as `Option`,
Python truthiness is made explicit at each use site, and code that can raise
returns `Except`.  Command strings are built exactly as the Python code
builds them (the literal `%s` placeholders for the tc binary and the
interface name are kept in the text, since the code substitutes them only
at execution time).
-/

namespace Mininet

/-- Fixed-width fractional digits, most significant first: exactly `k`
decimal digits of `n` (mirrors the zero-padding of printf `%f`). -/
def natDigitsFixed : ℕ → ℕ → List Char
  | _, 0 => []
  | n, k + 1 => natDigitsFixed (n / 10) k ++ [Char.ofNat (48 + n % 10)]

/-- Decimal digits of `n`, most significant first, by fuel-bounded
structural recursion (so that concrete evaluation reduces in the kernel). -/
def natDigitsAux : ℕ → ℕ → List Char
  | 0, _ => []
  | fuel + 1, n =>
    if n < 10 then [Char.ofNat (48 + n % 10)]
    else natDigitsAux fuel (n / 10) ++ [Char.ofNat (48 + n % 10)]

/-- Decimal rendering of a natural number. -/
def natRepr (n : ℕ) : String := String.mk (natDigitsAux (n + 1) n)

/-- Decimal rendering of an integer (Python `%d`). -/
def intRepr (i : ℤ) : String :=
  if i < 0 then "-" ++ natRepr i.natAbs else natRepr i.natAbs

/-- Round the absolute value of `q` times `10^prec` to the nearest
integer (half away from zero), computed on the numerator and denominator
so that concrete evaluation reduces in the kernel.  Python formats
through binary doubles and printf; on the short decimal inputs used by
the program the results agree. -/
def ratScaledRound (q : ℚ) (prec : ℕ) : ℕ :=
  (2 * q.num.natAbs * 10 ^ prec + q.den) / (2 * q.den)

/-- Python `%.<prec>f` fixed-point formatting: sign, integer part, a dot,
and exactly `prec` fractional digits. -/
def fmtFixed (q : ℚ) (prec : ℕ) : String :=
  let n := ratScaledRound q prec
  let sign := if q < 0 then "-" else ""
  sign ++ natRepr (n / 10 ^ prec) ++ "." ++ String.mk (natDigitsFixed (n % 10 ^ prec) prec)

/-- A Python value appearing in a shaping parameter slot: a number or a
string (delay and jitter are passed as either, e.g. `delay="5ms"`). -/
inductive PyVal where
  | num (q : ℚ)
  | str (s : String)
deriving DecidableEq

/-- Python truthiness of a parameter value. -/
def PyVal.truthy : PyVal → Bool
  | .num q => decide (q ≠ 0)
  | .str s => decide (s ≠ "")

/-- Python 2 comparison `v < 0`: numbers compare numerically; a string
always compares greater than a number, so the test is false for strings. -/
def PyVal.ltZero : PyVal → Bool
  | .num q => decide (q < 0)
  | .str _ => false

/-- Rendering of a value under `%s` formatting. -/
def PyVal.render : PyVal → String
  | .num q => if q.den = 1 then intRepr q.num else fmtFixed q 6
  | .str s => s

/-- Truthiness of an optional parameter (`None` is falsy). -/
def optTruthy : Option PyVal → Bool
  | some v => v.truthy
  | none => false

/-- The guard `v and v < 0` from `TCIntf.delayCmds`. -/
def optNegB : Option PyVal → Bool
  | some v => v.truthy && v.ltZero
  | none => false

/-- The guard `loss and (loss < 0 or loss > 100)` from `TCIntf.delayCmds`. -/
def lossBadB : Option ℚ → Bool
  | some l => decide (l ≠ 0) && (decide (l < 0) || decide (l > 100))
  | none => false

/-- Truthiness of the loss parameter (used by the early-return test). -/
def lossTruthy : Option ℚ → Bool
  | some l => decide (l ≠ 0)
  | none => false

/-- Rendering of an optional value in a logged error message. -/
def optRender : Option PyVal → String
  | some v => v.render
  | none => "None"

/-- Logged error for a negative delay (text approximates the log call). -/
def negDelayErr (d : Option PyVal) : String :=
  "Negative delay " ++ optRender d ++ " \n"

/-- Logged error for a negative jitter. -/
def negJitterErr (j : Option PyVal) : String :=
  "Negative jitter " ++ optRender j ++ " \n"

/-- Logged error for a loss percentage outside 0..100. -/
def badLossErr (l : ℚ) : String :=
  "Bad loss percentage " ++ (PyVal.num l).render ++ " %\n"

/-- Logged error for a bandwidth outside the supported range. -/
def bwRangeErr (b : ℚ) : String :=
  "Bandwidth limit " ++ (PyVal.num b).render ++
    " is outside supported range 0..1000 - ignoring\n"

/-- `TCIntf.bwParamMax`. -/
def bwParamMax : ℚ := 1000

/-- First command of the default HTB bandwidth stage. -/
def htbQdiscCmd : String := "%s qdisc add dev %s root handle 5:0 htb default 1"

/-- Second command of the default HTB bandwidth stage. -/
def htbClassCmd (b : ℚ) : String :=
  "%s class add dev %s parent 5:0 classid 5:1 htb " ++
    ("rate " ++ fmtFixed b 6 ++ "Mbit burst 15k")

/-- First command of the HFSC bandwidth stage. -/
def hfscQdiscCmd : String := "%s qdisc add dev %s root handle 5:0 hfsc default 1"

/-- Second command of the HFSC bandwidth stage. -/
def hfscClassCmd (b : ℚ) : String :=
  "%s class add dev %s parent 5:0 classid 5:1 hfsc sc " ++
    ("rate " ++ fmtFixed b 6 ++ "Mbit ul rate " ++ fmtFixed b 6 ++ "Mbit")

/-- Single command of the TBF bandwidth stage. -/
def tbfQdiscCmd (b lat : ℚ) : String :=
  "%s qdisc add dev %s root handle 5: tbf " ++
    ("rate " ++ fmtFixed b 6 ++ "Mbit burst 15000 latency " ++ fmtFixed lat 6 ++ "ms")

/-- The ECN/RED congestion-marking stage command, attached at `parent`. -/
def redQdiscCmd (parent : String) (b : ℚ) (ecn : Bool) : String :=
  "%s qdisc add dev %s" ++ parent ++ "handle 6: red limit 1000000 " ++
    "min 30000 max 35000 avpkt 1500 " ++ "burst 20 " ++
    ("bandwidth " ++ fmtFixed b 6 ++ "mbit probability 1" ++
      (if ecn then " ecn" else ""))

/-- The netem delay/loss stage command, attached at `parent`. -/
def netemCmd (parent args : String) : String :=
  "%s qdisc add dev %s " ++ parent ++ " handle 10: netem " ++ args

/-- Root-discipline deletion command issued before reconfiguration. -/
def delRootCmd : String := "%s qdisc del dev %s root"

/-- Query of the current queueing-discipline state. -/
def qdiscShowCmd : String := "%s qdisc show dev %s"

/-- Result of `TCIntf.bwCmds`: the synthesized commands, the parent handle
exposed to the next stage, and logged errors. -/
structure BwResult where
  cmds : List String
  parent : String
  errs : List String
deriving DecidableEq

/-- The discipline-selection chain of `TCIntf.bwCmds`: HFSC, else TBF
(deriving the latency `15 * 8 / bw` when none is given — a
`ZeroDivisionError` when `bw = 0`), else the default HTB. -/
def bwCoreCmds (b : ℚ) (use_hfsc use_tbf : Bool) (latency_ms : Option ℚ) :
    Except String (List String) :=
  if use_hfsc then
    .ok [hfscQdiscCmd, hfscClassCmd b]
  else if use_tbf then
    match latency_ms with
    | none =>
      if b = 0 then .error "ZeroDivisionError"
      else .ok [tbfQdiscCmd b (15 * 8 / b)]
    | some lat => .ok [tbfQdiscCmd b lat]
  else
    .ok [htbQdiscCmd, htbClassCmd b]

/-- The ECN-elif-RED tail of `TCIntf.bwCmds`: optionally append the
congestion-marking command at ` parent 5:1 ` and advance the parent. -/
def ecnRedStep (cs : List String) (b : ℚ) (enable_ecn enable_red : Bool) :
    BwResult :=
  if enable_ecn then
    ⟨cs ++ [redQdiscCmd " parent 5:1 " b true], " parent 6: ", []⟩
  else if enable_red then
    ⟨cs ++ [redQdiscCmd " parent 5:1 " b false], " parent 6: ", []⟩
  else
    ⟨cs, " parent 5:1 ", []⟩

/-- The effective bandwidth after the experimental switch-side speedup
override of `TCIntf.bwCmds`. -/
def effBw (nodeName : String) (speedup b0 : ℚ) : ℚ :=
  if speedup > 0 ∧ nodeName.take 1 = "s" then speedup else b0

/-- Shallow embedding of `TCIntf.bwCmds` (src/mininet/link.py).  The
`Except` return captures the `ZeroDivisionError` raised by the derived
TBF latency `15 * 8 / bw` when `bw = 0`. -/
def bwCmds (nodeName : String) (bw : Option ℚ) (speedup : ℚ)
    (use_hfsc use_tbf : Bool) (latency_ms : Option ℚ)
    (enable_ecn enable_red : Bool) : Except String BwResult :=
  match bw with
  | none => .ok ⟨[], " root ", []⟩
  | some b0 =>
    if b0 ≠ 0 ∧ (b0 < 0 ∨ b0 > bwParamMax) then
      .ok ⟨[], " root ", [bwRangeErr b0]⟩
    else
      match bwCoreCmds (effBw nodeName speedup b0) use_hfsc use_tbf latency_ms with
      | .error e => .error e
      | .ok cs =>
        .ok (ecnRedStep cs (effBw nodeName speedup b0) enable_ecn enable_red)

/-- Result of `TCIntf.delayCmds`. -/
structure DelayResult where
  cmds : List String
  parent : String
  errs : List String
deriving DecidableEq

/-- The delay piece of the netem argument string. -/
def delayPart : Option PyVal → String
  | some d => "delay " ++ d.render ++ " "
  | none => ""

/-- The jitter piece of the netem argument string (the bare value). -/
def jitterPart : Option PyVal → String
  | some j => j.render ++ " "
  | none => ""

/-- The loss piece of the netem argument string (`%.5f` formatting). -/
def lossPart : Option ℚ → String
  | some l => "loss " ++ fmtFixed l 5 ++ " "
  | none => ""

/-- The queue-limit piece of the netem argument string. -/
def limitPart : Option ℤ → String
  | some m => "limit " ++ intRepr m
  | none => ""

/-- The netem argument string built by `TCIntf.delayCmds`. -/
def netemArgs (delay jitter : Option PyVal) (loss : Option ℚ)
    (max_queue_size : Option ℤ) : String :=
  delayPart delay ++ jitterPart jitter ++ lossPart loss ++
    limitPart max_queue_size

/-- Shallow embedding of `TCIntf.delayCmds` (src/mininet/link.py). -/
def delayCmds (parent : String) (delay jitter : Option PyVal)
    (loss : Option ℚ) (max_queue_size : Option ℤ) : DelayResult :=
  if optNegB delay then ⟨[], parent, [negDelayErr delay]⟩
  else if optNegB jitter then ⟨[], parent, [negJitterErr jitter]⟩
  else if lossBadB loss then
    ⟨[], parent, [badLossErr ((loss).getD 0)]⟩
  else
    if netemArgs delay jitter loss max_queue_size ≠ "" then
      ⟨[netemCmd parent (netemArgs delay jitter loss max_queue_size)],
        " parent 10:1 ", []⟩
    else ⟨[], parent, []⟩

/-- Helper for the offload command: bool to on/off. -/
def onOff (b : Bool) : String := if b then "on" else "off"

/-- The `ethtool -K` offload command issued by every `TCIntf.config` call. -/
def ethtoolCmd (intfName : String) (gro txo rxo : Bool) : String :=
  "ethtool -K " ++ intfName ++ " gro " ++ onOff gro ++ " tx " ++ onOff txo ++
    " rx " ++ onOff rxo

/-- Substring test used for the pristine-qdisc check. -/
def strContains (hay needle : String) : Bool :=
  decide (needle.data <:+: hay.data)

/-- The kernel-pristine test on the output of `tc qdisc show`: pristine
means the output mentions `priomap` or `noqueue`. -/
def pristineB (tcoutput : String) : Bool :=
  strContains tcoutput "priomap" || strContains tcoutput "noqueue"

/-- The clear-existing-configuration commands of `TCIntf.config`. -/
def clearCmds (tcoutput : String) : List String :=
  if pristineB tcoutput then [] else [delRootCmd]

/-- Result of `TCIntf.config`: the offload command, whether the qdisc
state was queried, the tc shaping commands issued in order, the parent
handle stored in the result record (`none` models the early bare
`return`), and logged errors. -/
structure ConfigResult where
  ethtool : String
  queried : Bool
  cmds : List String
  parent : Option String
  errs : List String
deriving DecidableEq

/-- Decidable equality for `Except` results, used to evaluate the
embedding at concrete inputs. -/
instance {e a : Type} [DecidableEq e] [DecidableEq a] :
    DecidableEq (Except e a) := fun x y =>
  match x, y with
  | .error u, .error v =>
    if h : u = v then .isTrue (by rw [h]) else .isFalse (by simp [h])
  | .error _, .ok _ => .isFalse (by simp)
  | .ok _, .error _ => .isFalse (by simp)
  | .ok u, .ok v =>
    if h : u = v then .isTrue (by rw [h]) else .isFalse (by simp [h])

/-- The early-return test of `TCIntf.config`: nothing else to configure
when no bandwidth was given, delay and loss are falsy, and no max queue
size was given. -/
def earlyReturnB (bw : Option ℚ) (delay : Option PyVal) (loss : Option ℚ)
    (max_queue_size : Option ℤ) : Bool :=
  bw.isNone && !(optTruthy delay) && !(lossTruthy loss) && max_queue_size.isNone

/-- Shallow embedding of `TCIntf.config` (src/mininet/link.py), with the
environment response to `tc qdisc show` passed in as `tcoutput`.  The base
`Intf.config` call is a no-op here because no addressing parameters are
passed (the claims fix `params` empty). -/
def config (nodeName intfName tcoutput : String) (bw : Option ℚ)
    (delay jitter : Option PyVal) (loss : Option ℚ)
    (gro txo rxo : Bool) (speedup : ℚ) (use_hfsc use_tbf : Bool)
    (latency_ms : Option ℚ) (enable_ecn enable_red : Bool)
    (max_queue_size : Option ℤ) : Except String ConfigResult :=
  let eth := ethtoolCmd intfName gro txo rxo
  if earlyReturnB bw delay loss max_queue_size then
    .ok ⟨eth, false, [], none, []⟩
  else
    match bwCmds nodeName bw speedup use_hfsc use_tbf latency_ms enable_ecn enable_red with
    | .error e => .error e
    | .ok bres =>
      let dres := delayCmds bres.parent delay jitter loss max_queue_size
      .ok ⟨eth, true, clearCmds tcoutput ++ bres.cmds ++ dres.cmds,
           some dres.parent, bres.errs ++ dres.errs⟩

/-- All commands a `config` call sends to the node, in order: the offload
command, the qdisc-state query when performed, then the tc commands. -/
def issuedNodeCmds (r : ConfigResult) : List String :=
  r.ethtool :: ((if r.queried then [qdiscShowCmd] else []) ++ r.cmds)

/-! Link and interface lifecycle (src/mininet/link.py `Link.__init__`,
`Link.delete`; src/mininet/linux/node.py `Intf.delete`).  The node side of
interface registration lives in `mininet/basenode.py` and
`mininet/baseintf.py`, which are not under src/, so those two operations
are modelled from the spec. -/

/-- An Interface object: its logical name and the back-reference to its
owning Link (`some ()` while the link is alive, `none` once cleared). -/
structure MIntf where
  name : String
  link : Option Unit
deriving DecidableEq

/-- A node as the claims observe it: its mapping of interface names. -/
structure MNode where
  intfs : List String
deriving DecidableEq

/-- Modelled from the spec: `BaseIntf.__init__` / `Node.addIntf`
(mininet/baseintf.py and mininet/basenode.py are not under src/) — a
created Interface registers its logical name as a 1:1 entry in the owning
node mapping of interface name to Interface. -/
def addIntf (n : MNode) (i : MIntf) : MNode :=
  ⟨n.intfs ++ [i.name]⟩

/-- Modelled from the spec: `Node.delIntf` (mininet/basenode.py is not
under src/) — interface deletion removes the node mapping entry for that
interface. -/
def delIntf (n : MNode) (i : MIntf) : MNode :=
  ⟨n.intfs.erase i.name⟩

/-- Result of one `Intf.delete` call: the mutated interface and node, the
kernel command issued, and the error the call raises, if any. -/
structure IntfDeleteOut where
  intf : MIntf
  node : MNode
  cmd : String
  raised : Option String
deriving DecidableEq

/-- Shallow embedding of `Intf.delete` (src/mininet/linux/node.py): issue
the kernel deletion command, deregister from the owning node, clear the
link back-reference, then `return result` — `result` is unbound in that
scope (the only `result` local in the file belongs to `rename`), so the
call always raises NameError after its side effects have been applied. -/
def intfDelete (i : MIntf) (n : MNode) : IntfDeleteOut :=
  ⟨{ i with link := none }, delIntf n i, "ip link del " ++ i.name,
    some "NameError: result is not defined"⟩

/-- A Link together with its two endpoint nodes, as mutated by
construction and deletion.  `intf1`/`intf2` are the Link fields, set to
`none` by `Link.delete`. -/
structure LinkSt where
  node1 : MNode
  node2 : MNode
  intf1 : Option MIntf
  intf2 : Option MIntf
deriving DecidableEq

/-- Link construction (src/mininet/link.py `Link.__init__`): make the two
Interface objects, each holding the link back-reference, registered on
their endpoint nodes (registration modelled from the spec, see
`addIntf`). -/
def linkMake (n1 n2 : MNode) (name1 name2 : String) : LinkSt :=
  let i1 : MIntf := ⟨name1, some ()⟩
  let i2 : MIntf := ⟨name2, some ()⟩
  ⟨addIntf n1 i1, addIntf n2 i2, some i1, some i2⟩

/-- Shallow embedding of `Link.delete` (src/mininet/link.py): delete
interface 1, null the field, delete interface 2, null the field — with
Python exception propagation: when `self.intf1.delete()` raises, the
statements `self.intf1 = None`, `self.intf2.delete()` and
`self.intf2 = None` are never reached and the exception escapes
`Link.delete`.  Returns the state after the call, the two Interface
objects as they stand (the mutated objects are still referenced by the
Link fields and by the caller), and the raised error, if any.  Deleting a
link whose interface fields were already nulled raises differently in
Python; that branch is left as the identity and is never reached from
`linkMake`. -/
def linkDelete (st : LinkSt) :
    LinkSt × Option MIntf × Option MIntf × Option String :=
  match st.intf1, st.intf2 with
  | some i1, some i2 =>
    let r1 := intfDelete i1 st.node1
    match r1.raised with
    | some e =>
      (⟨r1.node, st.node2, some r1.intf, some i2⟩, some r1.intf, some i2,
        some e)
    | none =>
      let r2 := intfDelete i2 st.node2
      match r2.raised with
      | some e =>
        (⟨r1.node, r2.node, none, some r2.intf⟩, some r1.intf, some r2.intf,
          some e)
      | none =>
        (⟨r1.node, r2.node, none, none⟩, some r1.intf, some r2.intf, none)
  | _, _ => (st, none, none, none)

/-! Routing-domain allocation (src/mininet/openbsd/node.py
`Node.getShell`).  `Node.index` starts at 1; an in-namespace node takes
`rdid := index`, increments the class counter, and only then checks the
ceiling: when the incremented counter reaches 256 the code aborts the
whole process (calling the unimported name `error`, then `exit(1)`)
before the `ifconfig ... create` anchor command is built or run. -/

/-- One allocation step of `Node.getShell` for `inNamespace=True`:
given the current `Node.index`, return `some (rdid, newIndex)` when the
allocation succeeds (and the anchor pair interface is then created), or
`none` when the step aborts before creating any anchor. -/
def rdomainAlloc (index : ℕ) : Option (ℕ × ℕ) :=
  let rdid := index
  let newIndex := index + 1
  if newIndex = 256 then none else some (rdid, newIndex)

/-- The sequence of rdomain ids handed out by `n` successive allocations
starting from the initial `Node.index = 1`; allocation stops at the first
aborted attempt. -/
def rdomainIds : ℕ → ℕ → List ℕ
  | _, 0 => []
  | index, n + 1 =>
    match rdomainAlloc index with
    | none => []
    | some (rdid, newIndex) => rdid :: rdomainIds newIndex n

/-- Strict monotonicity of a list of allocated ids, as an executable
check. -/
def strictlyIncreasing : List ℕ → Bool
  | [] => true
  | [_] => true
  | a :: b :: t => decide (a < b) && strictlyIncreasing (b :: t)

/-! Cleanup (src/mininet/clean.py, Linux platform branch).  The run is
modelled as the ordered trace of external effects; outputs of the
commands the run inspects are supplied by a `CleanEnv` record, and the
unbounded re-check loop of `killprocs` consumes a finite schedule of
successive process-query results (the loop blocks forever if the system
never reports zero matches — an accepted limitation noted in the spec). -/

/-- One external effect of a Cleanup run. -/
inductive CEvent where
  | cmd (c : String)
  | screens
  | callback (cb : ℕ)
deriving DecidableEq

/-- Whether an event is a registered-callback invocation. -/
def CEvent.isCallback : CEvent → Bool
  | .callback _ => true
  | _ => false

/-- Environment responses consumed by one Cleanup run. -/
structure CleanEnv where
  dpsOut : List String
  ovsOut1 : List String
  ovsOut2 : List String
  linksOut : List String
  tapOut : String
  nodePolls : List String
  tunnelPolls : List String
  sshPolls : List String

/-- The concatenated zombie-pattern list from `Cleanup.cleanup` (the
Python source juxtaposes the string literals, so two separators are
missing in the original text; transcribed as the code produces it). -/
def zombies : String :=
  "controller ofprotocol ofdatapath ping nox_corelt-nox_core ovs-openflowd ovs-controllerovs-testcontroller udpbwtest mnexec ivs ryu-manager"

/-- The re-check loop of `killprocs`: query matching pids, and while any
remain, kill again and re-query, following the finite poll schedule. -/
def killLoop (pattern : String) : List String → List CEvent
  | [] => [.cmd ("pgrep -f " ++ pattern)]
  | p :: rest =>
    .cmd ("pgrep -f " ++ pattern) ::
      (if p ≠ "" then .cmd ("pkill -9 -f " ++ pattern) :: killLoop pattern rest
       else [])

/-- Shallow embedding of `killprocs` (src/mininet/clean.py): a first kill
by pattern, then the re-check loop. -/
def killprocs (polls : List String) (pattern : String) : List CEvent :=
  .cmd ("pkill -9 -f " ++ pattern) :: killLoop pattern polls

/-- Chunks of size `n` taken from `l`, mirroring
`for i in range(0, len(l), n): l[i:i+n]`. -/
def chunksOf (n : ℕ) (l : List String) : List (List String) :=
  (List.range ((l.length + n - 1) / n)).map fun k => (l.drop (k * n)).take n

/-- Shallow embedding of `_iplinkClean` (src/mininet/clean.py, Linux): list
the emulation-owned links, delete them in chunks of 1000, then remove a
stray `tap9` if present. -/
def iplinkClean (links : List String) (tapOut : String) : List CEvent :=
  [.cmd "ip link show | egrep -o interface-pattern"] ++
    (chunksOf 1000 links).map (fun chunk =>
      .cmd ("( " ++ String.intercalate ";" (chunk.map fun l => "ip link del " ++ l) ++
        " ) 2> /dev/null")) ++
    [.cmd "ip link show"] ++
    (if strContains tapOut "tap9" then [.cmd "ip link del tap9"] else [])

/-- The stages of a Cleanup run before the registered callbacks
(src/mininet/clean.py `Cleanup.cleanup`, Linux platform branch). -/
def cleanupStages (env : CleanEnv) : List CEvent :=
  [.cmd ("killall " ++ zombies ++ " 2> /dev/null"),
   .cmd ("killall -9 " ++ zombies ++ " 2> /dev/null"),
   .cmd "pkill -9 -f \x22sudo mnexec\x22",
   .cmd "rm -f /tmp/vconn* /tmp/vlogs* /tmp/*.out /tmp/*.log",
   .screens,
   .cmd "ps ax | egrep -o dp-pattern | sed s/dp/nl:/"] ++
  (env.dpsOut.filter (fun dp => dp ≠ "")).map (fun dp => .cmd ("dpctl deldp " ++ dp)) ++
  [.cmd "ovs-vsctl --timeout=1 list-br"] ++
  (if env.ovsOut1 ≠ [] then
    [.cmd ("ovs-vsctl " ++ String.intercalate " -- "
      ((env.ovsOut1.filter (fun dp => dp ≠ "")).map fun dp => "--if-exists del-br " ++ dp))]
   else []) ++
  [.cmd "ovs-vsctl --timeout=1 list-br"] ++
  env.ovsOut2.map (fun dp => .cmd ("ovs-vsctl del-br " ++ dp)) ++
  iplinkClean env.linksOut env.tapOut ++
  killprocs env.nodePolls "[m]ininet:" ++
  killprocs env.tunnelPolls "[T]unnel=Ethernet" ++
  killprocs env.sshPolls ".ssh\x5c/mn" ++
  [.cmd "rm -f ~/.ssh/mn/*"]

/-- Shallow embedding of `Cleanup.cleanup` (src/mininet/clean.py): run all
stages, then invoke every registered callback, in registration order. -/
def cleanupRun (env : CleanEnv) (callbacks : List ℕ) : List CEvent :=
  cleanupStages env ++ callbacks.map CEvent.callback

/-- Shallow embedding of `Cleanup.addCleanupCallback`
(src/mininet/clean.py): append the callback unless it is already
registered. -/
def addCleanupCallback (callbacks : List ℕ) (cb : ℕ) : List ℕ :=
  if cb ∈ callbacks then callbacks else callbacks ++ [cb]

/-- Whether a shaping synthesis step succeeded without raising. -/
def isOkB (e : Except String BwResult) : Bool :=
  match e with
  | .ok _ => true
  | .error _ => false

/-- The bandwidth stage runs exactly when a bandwidth was supplied and it
passes validation (the truthiness guard of the range check included). -/
def bwStageRan (bw : Option ℚ) : Bool :=
  match bw with
  | none => false
  | some b => !(decide (b ≠ 0 ∧ (b < 0 ∨ b > bwParamMax)))

/-- The congestion-marking (ECN/RED) stage runs exactly when the bandwidth
stage ran and one of the two modes is enabled. -/
def aqmRan (bw : Option ℚ) (enable_ecn enable_red : Bool) : Bool :=
  bwStageRan bw && (enable_ecn || enable_red)

/-- The delay/jitter/loss validation of `delayCmds` passes. -/
def netemValid (delay jitter : Option PyVal) (loss : Option ℚ) : Bool :=
  !(optNegB delay) && !(optNegB jitter) && !(lossBadB loss)

/-- The netem stage runs exactly when its validation passes and at least
one netem argument was supplied. -/
def netemRan (delay jitter : Option PyVal) (loss : Option ℚ)
    (max_queue_size : Option ℤ) : Bool :=
  netemValid delay jitter loss &&
    decide (netemArgs delay jitter loss max_queue_size ≠ "")

/-- The layered-handle chaining invariant on the output of a `config`
call: the command list decomposes into the clear / bandwidth / netem
parts; the bandwidth stage (when it ran) attaches its root qdisc to
`root`; the ECN/RED stage (when it ran) is the last bandwidth-part
command and attaches to ` parent 5:1 `, exposing ` parent 6: `; the
netem stage (when it ran) attaches to exactly the parent handle exposed
by the last stage that ran before it and exposes ` parent 10:1 `; and
the parent handle stored in the result is the one exposed by the last
stage that ran. -/
def ChainInv (nodeName tcoutput : String) (bw : Option ℚ) (speedup : ℚ)
    (use_hfsc use_tbf : Bool) (latency_ms : Option ℚ)
    (enable_ecn enable_red : Bool) (delay jitter : Option PyVal)
    (loss : Option ℚ) (max_queue_size : Option ℤ) (r : ConfigResult) : Prop :=
  ∃ bres dres,
    bwCmds nodeName bw speedup use_hfsc use_tbf latency_ms enable_ecn enable_red
      = .ok bres ∧
    delayCmds bres.parent delay jitter loss max_queue_size = dres ∧
    (bwStageRan bw = true →
      ∃ rest, bres.cmds.head? = some ("%s qdisc add dev %s root handle 5" ++ rest)) ∧
    (aqmRan bw enable_ecn enable_red = true →
      bres.parent = " parent 6: " ∧
      ∃ b, bres.cmds.getLast? = some (redQdiscCmd " parent 5:1 " b enable_ecn)) ∧
    (bwStageRan bw = true → aqmRan bw enable_ecn enable_red = false →
      bres.parent = " parent 5:1 ") ∧
    (bwStageRan bw = false → bres.cmds = [] ∧ bres.parent = " root ") ∧
    (netemRan delay jitter loss max_queue_size = true →
      dres.cmds = [netemCmd bres.parent (netemArgs delay jitter loss max_queue_size)] ∧
      dres.parent = " parent 10:1 ") ∧
    (netemRan delay jitter loss max_queue_size = false →
      dres.cmds = [] ∧ dres.parent = bres.parent) ∧
    r.cmds = clearCmds tcoutput ++ bres.cmds ++ dres.cmds ∧
    r.parent = some dres.parent

end Mininet

/-! Helper lemmas shared by the claim theorems. -/

namespace Mininet

theorem natDigitsFixed_length (n k : ℕ) : (natDigitsFixed n k).length = k := by
  induction k generalizing n with
  | zero => rfl
  | succ k ih => simp [natDigitsFixed, ih]

theorem fmtFixed_decomposition (q : ℚ) (k : ℕ) :
    ∃ ip ds, fmtFixed q k = ip ++ ("." ++ String.mk ds) ∧ ds.length = k := by
  refine ⟨(if q < 0 then "-" else "") ++ natRepr (ratScaledRound q k / 10 ^ k),
    natDigitsFixed (ratScaledRound q k % 10 ^ k) k, ?_, natDigitsFixed_length _ _⟩
  simp [fmtFixed, String.append_assoc]

theorem strLen_append (a b : String) : (a ++ b).length = a.length + b.length :=
  String.length_append a b

theorem ne_of_length_ne {a b : String} (h : a.length ≠ b.length) : a ≠ b := by
  intro hab
  exact h (hab ▸ rfl)

theorem delRootCmd_length : delRootCmd.length = 24 := by decide

theorem htbQdiscCmd_ne_delRoot : htbQdiscCmd = delRootCmd → False := by decide

theorem hfscQdiscCmd_ne_delRoot : hfscQdiscCmd = delRootCmd → False := by decide

theorem htbClassCmd_len (b : ℚ) : 25 ≤ (htbClassCmd b).length := by
  have h : ("%s class add dev %s parent 5:0 classid 5:1 htb " : String).length = 47 := by
    decide
  simp [htbClassCmd, strLen_append, h]
  omega

theorem hfscClassCmd_len (b : ℚ) : 25 ≤ (hfscClassCmd b).length := by
  have h : ("%s class add dev %s parent 5:0 classid 5:1 hfsc sc " : String).length = 51 := by
    decide
  simp [hfscClassCmd, strLen_append, h]
  omega

theorem tbfQdiscCmd_len (b lat : ℚ) : 25 ≤ (tbfQdiscCmd b lat).length := by
  have h : ("%s qdisc add dev %s root handle 5: tbf " : String).length = 39 := by
    decide
  simp [tbfQdiscCmd, strLen_append, h]
  omega

theorem redQdiscCmd_len (p : String) (b : ℚ) (e : Bool) :
    25 ≤ (redQdiscCmd p b e).length := by
  have h1 : ("%s qdisc add dev %s" : String).length = 19 := by decide
  have h2 : ("handle 6: red limit 1000000 " : String).length = 28 := by decide
  simp [redQdiscCmd, strLen_append, h1, h2]
  omega

theorem netemCmd_len (p a : String) : 25 ≤ (netemCmd p a).length := by
  have h1 : ("%s qdisc add dev %s " : String).length = 20 := by decide
  have h2 : (" handle 10: netem " : String).length = 18 := by decide
  simp [netemCmd, strLen_append, h1, h2]
  omega

theorem long_ne_delRoot {c : String} (h : 25 ≤ c.length) : c = delRootCmd → False := by
  intro hc
  rw [hc, delRootCmd_length] at h
  omega

/-- Exhaustive description of the bandwidth-stage output: either the stage
did not run (no bandwidth, or the range check rejected it) and nothing was
synthesized with the parent left at root, or it ran, producing one of the
three discipline command pairs, optionally followed by the ECN/RED command
attached at ` parent 5:1 `. -/
theorem bwCmds_shape (nodeName : String) (bw : Option ℚ) (speedup : ℚ)
    (use_hfsc use_tbf : Bool) (latency_ms : Option ℚ)
    (enable_ecn enable_red : Bool) (bres : BwResult)
    (hok : bwCmds nodeName bw speedup use_hfsc use_tbf latency_ms
      enable_ecn enable_red = .ok bres) :
    (bwStageRan bw = false ∧ bres.cmds = [] ∧ bres.parent = " root ") ∨
    (bwStageRan bw = true ∧ bres.errs = [] ∧
      ∃ (b : ℚ) (core : List String),
        (core = [hfscQdiscCmd, hfscClassCmd b] ∨
         (∃ lat, core = [tbfQdiscCmd b lat]) ∨
         core = [htbQdiscCmd, htbClassCmd b]) ∧
        (((enable_ecn || enable_red) = false ∧ bres.cmds = core ∧
            bres.parent = " parent 5:1 ") ∨
         ((enable_ecn || enable_red) = true ∧
            bres.cmds = core ++ [redQdiscCmd " parent 5:1 " b enable_ecn] ∧
            bres.parent = " parent 6: "))) := by
  have hcoreShape : ∀ (b : ℚ) (core : List String),
      bwCoreCmds b use_hfsc use_tbf latency_ms = .ok core →
      core = [hfscQdiscCmd, hfscClassCmd b] ∨
        (∃ lat, core = [tbfQdiscCmd b lat]) ∨
        core = [htbQdiscCmd, htbClassCmd b] := by
    intro b core hc
    unfold bwCoreCmds at hc
    cases use_hfsc
    · cases use_tbf
      · simp only [Bool.false_eq_true, if_false, Except.ok.injEq] at hc
        exact Or.inr (Or.inr hc.symm)
      · simp only [Bool.false_eq_true, if_false, if_true] at hc
        rcases latency_ms with _ | lat
        · simp only at hc
          split at hc
          · cases hc
          · simp only [Except.ok.injEq] at hc
            exact Or.inr (Or.inl ⟨_, hc.symm⟩)
        · simp only [Except.ok.injEq] at hc
          exact Or.inr (Or.inl ⟨lat, hc.symm⟩)
    · simp only [if_true, Except.ok.injEq] at hc
      exact Or.inl hc.symm
  have hstep : ∀ (b : ℚ) (cs : List String),
      ((enable_ecn || enable_red) = false ∧
        ecnRedStep cs b enable_ecn enable_red = ⟨cs, " parent 5:1 ", []⟩) ∨
      ((enable_ecn || enable_red) = true ∧
        ecnRedStep cs b enable_ecn enable_red =
          ⟨cs ++ [redQdiscCmd " parent 5:1 " b enable_ecn], " parent 6: ", []⟩) := by
    intro b cs
    cases enable_ecn <;> cases enable_red <;> simp [ecnRedStep]
  rcases bw with _ | b0 <;> simp only [bwCmds] at hok
  · simp only [Except.ok.injEq] at hok
    subst hok
    left
    exact ⟨rfl, rfl, rfl⟩
  · split at hok
    next hrange =>
      simp only [Except.ok.injEq] at hok
      subst hok
      left
      refine ⟨?_, rfl, rfl⟩
      simp [bwStageRan, hrange]
    next hrange =>
      right
      have hran : bwStageRan (some b0) = true := by
        simp [bwStageRan, hrange]
      refine ⟨hran, ?_⟩
      rcases hc : bwCoreCmds (effBw nodeName speedup b0) use_hfsc use_tbf latency_ms
        with e | cs <;> rw [hc] at hok
      · cases hok
      · simp only [Except.ok.injEq] at hok
        subst hok
        rcases hstep (effBw nodeName speedup b0) cs with ⟨hb, hs⟩ | ⟨hb, hs⟩ <;>
          rw [hs]
        · exact ⟨rfl, effBw nodeName speedup b0, cs, hcoreShape _ _ hc,
            Or.inl ⟨hb, rfl, rfl⟩⟩
        · exact ⟨rfl, effBw nodeName speedup b0, cs, hcoreShape _ _ hc,
            Or.inr ⟨hb, rfl, rfl⟩⟩

/-- Every command produced by the bandwidth stage differs from the
root-deletion command. -/
theorem bwCmds_no_delRoot (nodeName : String) (bw : Option ℚ) (speedup : ℚ)
    (use_hfsc use_tbf : Bool) (latency_ms : Option ℚ)
    (enable_ecn enable_red : Bool) (bres : BwResult)
    (hok : bwCmds nodeName bw speedup use_hfsc use_tbf latency_ms
      enable_ecn enable_red = .ok bres) :
    ∀ c ∈ bres.cmds, c = delRootCmd → False := by
  have hshape := bwCmds_shape nodeName bw speedup use_hfsc use_tbf latency_ms
    enable_ecn enable_red bres hok
  have hcore : ∀ (b : ℚ) (core : List String),
      (core = [hfscQdiscCmd, hfscClassCmd b] ∨
       (∃ lat, core = [tbfQdiscCmd b lat]) ∨
       core = [htbQdiscCmd, htbClassCmd b]) →
      ∀ c ∈ core, c = delRootCmd → False := by
    rintro b core (rfl | ⟨lat, rfl⟩ | rfl) c hc <;>
      simp only [List.mem_cons, List.not_mem_nil, or_false] at hc
    · rcases hc with hc | hc <;> subst hc
      · exact hfscQdiscCmd_ne_delRoot
      · exact long_ne_delRoot (hfscClassCmd_len b)
    · subst hc
      exact long_ne_delRoot (tbfQdiscCmd_len b lat)
    · rcases hc with hc | hc <;> subst hc
      · exact htbQdiscCmd_ne_delRoot
      · exact long_ne_delRoot (htbClassCmd_len b)
  rcases hshape with ⟨_, hcmds, _⟩ | ⟨_, _, b, core, hsh, hrest⟩
  · rw [hcmds]
    simp
  · rcases hrest with ⟨_, hcmds, _⟩ | ⟨_, hcmds, _⟩
    · rw [hcmds]
      exact hcore b core hsh
    · rw [hcmds]
      intro c hc
      rcases List.mem_append.mp hc with hc | hc
      · exact hcore b core hsh c hc
      · simp only [List.mem_singleton] at hc
        subst hc
        exact long_ne_delRoot (redQdiscCmd_len _ _ _)

/-- Behaviour of the netem stage as a function of whether it ran: when it
ran, exactly one command attached at the given parent is produced and the
exposed parent advances to ` parent 10:1 `; otherwise no command is
produced and the parent is passed through unchanged. -/
theorem delayCmds_spec (parent : String) (delay jitter : Option PyVal)
    (loss : Option ℚ) (max_queue_size : Option ℤ) :
    (netemRan delay jitter loss max_queue_size = true →
      delayCmds parent delay jitter loss max_queue_size =
        ⟨[netemCmd parent (netemArgs delay jitter loss max_queue_size)],
          " parent 10:1 ", []⟩) ∧
    (netemRan delay jitter loss max_queue_size = false →
      (delayCmds parent delay jitter loss max_queue_size).cmds = [] ∧
      (delayCmds parent delay jitter loss max_queue_size).parent = parent) := by
  constructor <;> intro h
  · unfold netemRan netemValid at h
    simp only [Bool.and_eq_true, Bool.not_eq_true', decide_eq_true_eq] at h
    obtain ⟨⟨⟨hd, hj⟩, hl⟩, hargs⟩ := h
    simp [delayCmds, hd, hj, hl, hargs]
  · by_cases hd : optNegB delay = true
    · simp [delayCmds, hd]
    · rw [Bool.not_eq_true] at hd
      by_cases hj : optNegB jitter = true
      · simp [delayCmds, hd, hj]
      · rw [Bool.not_eq_true] at hj
        by_cases hl : lossBadB loss = true
        · simp [delayCmds, hd, hj, hl]
        · rw [Bool.not_eq_true] at hl
          unfold netemRan netemValid at h
          simp only [hd, hj, hl, Bool.not_false, Bool.and_true, Bool.true_and,
            decide_eq_false_iff_not, Decidable.not_not] at h
          simp [delayCmds, hd, hj, hl, h]

theorem hfscQdiscCmd_split :
    hfscQdiscCmd = "%s qdisc add dev %s root handle 5" ++ ":0 hfsc default 1" := by
  decide

theorem htbQdiscCmd_split :
    htbQdiscCmd = "%s qdisc add dev %s root handle 5" ++ ":0 htb default 1" := by
  decide

theorem tbfQdiscCmd_split (b lat : ℚ) :
    ∃ rest, tbfQdiscCmd b lat = "%s qdisc add dev %s root handle 5" ++ rest := by
  refine ⟨": tbf " ++ ("rate " ++ fmtFixed b 6 ++ "Mbit burst 15000 latency " ++
    fmtFixed lat 6 ++ "ms"), ?_⟩
  have h : ("%s qdisc add dev %s root handle 5: tbf " : String) =
      "%s qdisc add dev %s root handle 5" ++ ": tbf " := by decide
  rw [tbfQdiscCmd, h, String.append_assoc]

theorem contains_eq_false_iff (l : List String) (a : String) :
    l.contains a = false ↔ a ∉ l := by
  simp

theorem isEmpty_append_cons {α : Type} (l : List α) (a : α) (t : List α) :
    (l ++ a :: t).isEmpty = false := by
  cases l <;> rfl

/-- The first command of any discipline core attaches its qdisc at root
with handle 5. -/
theorem core_head_root (b : ℚ) (core : List String)
    (hcs : core = [hfscQdiscCmd, hfscClassCmd b] ∨
      (∃ lat, core = [tbfQdiscCmd b lat]) ∨
      core = [htbQdiscCmd, htbClassCmd b]) (tail : List String) :
    ∃ rest, (core ++ tail).head? = some ("%s qdisc add dev %s root handle 5" ++ rest) := by
  rcases hcs with rfl | ⟨lat, rfl⟩ | rfl
  · exact ⟨":0 hfsc default 1", by rw [← hfscQdiscCmd_split]; rfl⟩
  · obtain ⟨rest, hr⟩ := tbfQdiscCmd_split b lat
    exact ⟨rest, by rw [← hr]; rfl⟩
  · exact ⟨":0 htb default 1", by rw [← htbQdiscCmd_split]; rfl⟩

/-- C1: for every configure call on a traffic-shaped interface that
reaches the shaping stages and returns, each synthesized stage command
attaches to the exact parent handle exposed by the most recent preceding
stage that ran — root when no stage preceded it, ` parent 5:1 ` after the
bandwidth stage, ` parent 6: ` after the ECN/RED stage — and the parent
handle returned in the result is the one exposed by the last stage that
ran, ` parent 10:1 ` when the delay/loss netem stage ran. -/
theorem config_stage_parent_chaining
    (nodeName intfName tcoutput : String) (bw : Option ℚ)
    (delay jitter : Option PyVal) (loss : Option ℚ) (gro txo rxo : Bool)
    (speedup : ℚ) (use_hfsc use_tbf : Bool) (latency_ms : Option ℚ)
    (enable_ecn enable_red : Bool) (max_queue_size : Option ℤ)
    (r : ConfigResult)
    (hne : earlyReturnB bw delay loss max_queue_size = false)
    (hok : config nodeName intfName tcoutput bw delay jitter loss gro txo rxo
      speedup use_hfsc use_tbf latency_ms enable_ecn enable_red max_queue_size
      = .ok r) :
    ChainInv nodeName tcoutput bw speedup use_hfsc use_tbf latency_ms
      enable_ecn enable_red delay jitter loss max_queue_size r := by
  unfold config at hok
  rw [hne] at hok
  simp only [Bool.false_eq_true, if_false] at hok
  rcases hbw : bwCmds nodeName bw speedup use_hfsc use_tbf latency_ms
      enable_ecn enable_red with e | bres <;> rw [hbw] at hok
  · cases hok
  · simp only [Except.ok.injEq] at hok
    subst hok
    obtain ⟨hd1, hd2⟩ := delayCmds_spec bres.parent delay jitter loss max_queue_size
    have hshape := bwCmds_shape nodeName bw speedup use_hfsc use_tbf latency_ms
      enable_ecn enable_red bres hbw
    refine ⟨bres, delayCmds bres.parent delay jitter loss max_queue_size, hbw, rfl,
      ?_, ?_, ?_, ?_, ?_, ?_, rfl, rfl⟩
    · intro hran
      rcases hshape with ⟨hf, _, _⟩ | ⟨_, _, b, core, hcs, hrest⟩
      · rw [hran] at hf
        cases hf
      · rcases hrest with ⟨_, hcmds, _⟩ | ⟨_, hcmds, _⟩
        · obtain ⟨rest, hr⟩ := core_head_root b core hcs []
          rw [List.append_nil] at hr
          exact ⟨rest, by rw [hcmds]; exact hr⟩
        · obtain ⟨rest, hr⟩ :=
            core_head_root b core hcs [redQdiscCmd " parent 5:1 " b enable_ecn]
          exact ⟨rest, by rw [hcmds]; exact hr⟩
    · intro haqm
      have hparts := (Bool.and_eq_true _ _).mp haqm
      rcases hshape with ⟨hf, _, _⟩ | ⟨_, _, b, core, hcs, hrest⟩
      · rw [hparts.1] at hf
        cases hf
      · rcases hrest with ⟨her2, _, _⟩ | ⟨_, hcmds, hparent⟩
        · rw [hparts.2] at her2
          cases her2
        · exact ⟨hparent, b, by rw [hcmds]; exact List.getLast?_concat _⟩
    · intro hran haqmf
      rcases hshape with ⟨hf, _, _⟩ | ⟨_, _, b, core, hcs, hrest⟩
      · rw [hran] at hf
        cases hf
      · rcases hrest with ⟨_, _, hparent⟩ | ⟨her, _, _⟩
        · exact hparent
        · unfold aqmRan at haqmf
          rw [hran, her] at haqmf
          cases haqmf
    · intro hranf
      rcases hshape with ⟨_, hcmds, hparent⟩ | ⟨hran, _, _⟩
      · exact ⟨hcmds, hparent⟩
      · rw [hranf] at hran
        cases hran
    · intro h
      rw [hd1 h]
      exact ⟨rfl, rfl⟩
    · intro h
      exact hd2 h

/-- Every command produced by the netem stage differs from the
root-deletion command. -/
theorem delayCmds_no_delRoot (parent : String) (delay jitter : Option PyVal)
    (loss : Option ℚ) (max_queue_size : Option ℤ) :
    ∀ c ∈ (delayCmds parent delay jitter loss max_queue_size).cmds,
      c = delRootCmd → False := by
  unfold delayCmds
  split
  · simp
  · split
    · simp
    · split
      · simp
      · split
        · intro c hc
          simp only [List.mem_singleton] at hc
          subst hc
          exact fun h => long_ne_delRoot (netemCmd_len _ _) h
        · simp

/-- Witness for C1, the end-to-end scenario: `bw = 10`, `delay = "5ms"`,
`loss = 1` on a pristine interface produces exactly the HTB pair followed
by the netem command attached at ` parent 5:1 `, and the result parent is
` parent 10:1 `. -/
theorem config_stage_parent_chaining_witness :
    earlyReturnB (some 10) (some (PyVal.str "5ms")) (some 1) none = false ∧
    config "h1" "h1-eth0" "noqueue" (some 10) (some (PyVal.str "5ms")) none
      (some 1) false true true 0 false false none false false none =
      .ok ⟨"ethtool -K h1-eth0 gro off tx on rx on", true,
        ["%s qdisc add dev %s root handle 5:0 htb default 1",
         "%s class add dev %s parent 5:0 classid 5:1 htb rate 10.000000Mbit burst 15k",
         "%s qdisc add dev %s  parent 5:1  handle 10: netem delay 5ms loss 1.00000 "],
        some " parent 10:1 ", []⟩ ∧
    ChainInv "h1" "noqueue" (some 10) 0 false false none false false
      (some (PyVal.str "5ms")) none (some 1) none
      ⟨"ethtool -K h1-eth0 gro off tx on rx on", true,
        ["%s qdisc add dev %s root handle 5:0 htb default 1",
         "%s class add dev %s parent 5:0 classid 5:1 htb rate 10.000000Mbit burst 15k",
         "%s qdisc add dev %s  parent 5:1  handle 10: netem delay 5ms loss 1.00000 "],
        some " parent 10:1 ", []⟩ :=
  ⟨by decide, by decide,
    config_stage_parent_chaining "h1" "h1-eth0" "noqueue" (some 10)
      (some (PyVal.str "5ms")) none (some 1) false true true 0 false false none
      false false none
      ⟨"ethtool -K h1-eth0 gro off tx on rx on", true,
        ["%s qdisc add dev %s root handle 5:0 htb default 1",
         "%s class add dev %s parent 5:0 classid 5:1 htb rate 10.000000Mbit burst 15k",
         "%s qdisc add dev %s  parent 5:1  handle 10: netem delay 5ms loss 1.00000 "],
        some " parent 10:1 ", []⟩ (by decide) (by decide)⟩

/-- C2: for every bandwidth value in `[0, bwParamMax]`, a configure call
with only that bandwidth issues the HTB bandwidth-stage pair whose class
command references the value, and the result parent handle is
` parent 5:1 `; for a value outside that range no bandwidth command is
issued and an error is reported. -/
theorem config_bw_range_validation (nodeName intfName tcoutput : String) (b : ℚ) :
    ∃ r, config nodeName intfName tcoutput (some b) none none none false true
        true 0 false false none false false none = .ok r ∧
      (if 0 ≤ b ∧ b ≤ bwParamMax then
        r.cmds = clearCmds tcoutput ++ [htbQdiscCmd, htbClassCmd b] ∧
        (∃ pre post, htbClassCmd b = pre ++ (fmtFixed b 6 ++ post)) ∧
        r.parent = some " parent 5:1 " ∧ r.errs = []
      else
        r.cmds = clearCmds tcoutput ∧ r.errs = [bwRangeErr b] ∧
        r.errs.isEmpty = false) := by
  have hne : earlyReturnB (some b) none none none = false := rfl
  have heff : effBw nodeName 0 b = b := by simp [effBw]
  by_cases hin : 0 ≤ b ∧ b ≤ bwParamMax
  · have hnot : ¬(b ≠ 0 ∧ (b < 0 ∨ b > bwParamMax)) := by
      rintro ⟨h0, h1 | h1⟩
      · exact absurd hin.1 (not_le.mpr h1)
      · exact absurd hin.2 (not_le.mpr h1)
    refine ⟨⟨ethtoolCmd intfName false true true, true,
      clearCmds tcoutput ++ [htbQdiscCmd, htbClassCmd b],
      some " parent 5:1 ", []⟩, ?_, ?_⟩
    · simp [config, hne, bwCmds, hnot, heff, bwCoreCmds, ecnRedStep, delayCmds,
        optNegB, lossBadB, netemArgs, delayPart, jitterPart, lossPart, limitPart]
    · rw [if_pos hin]
      refine ⟨rfl, ⟨"%s class add dev %s parent 5:0 classid 5:1 htb " ++ "rate ",
        "Mbit burst 15k", ?_⟩, rfl, rfl⟩
      rw [htbClassCmd, String.append_assoc "rate " (fmtFixed b 6) "Mbit burst 15k",
        String.append_assoc "%s class add dev %s parent 5:0 classid 5:1 htb "
          "rate " (fmtFixed b 6 ++ "Mbit burst 15k")]
  · have hout : b ≠ 0 ∧ (b < 0 ∨ b > bwParamMax) := by
      rcases lt_or_le b 0 with hlt | hge
      · exact ⟨ne_of_lt hlt, Or.inl hlt⟩
      · have hgt : b > bwParamMax := by
          rcases lt_or_le bwParamMax b with h | h
          · exact h
          · exact absurd ⟨hge, h⟩ hin
        have hb0 : (0 : ℚ) < b := lt_of_le_of_lt (by norm_num [bwParamMax]) hgt
        exact ⟨ne_of_gt hb0, Or.inr hgt⟩
    refine ⟨⟨ethtoolCmd intfName false true true, true, clearCmds tcoutput,
      some " root ", [bwRangeErr b]⟩, ?_, ?_⟩
    · simp [config, hne, bwCmds, hout, delayCmds, optNegB, lossBadB, netemArgs,
        delayPart, jitterPart, lossPart, limitPart]
    · rw [if_neg hin]
      exact ⟨rfl, rfl, rfl⟩

/-- Counterexample for C3 as stated: a configure call with a valid
bandwidth of 10 and a negative delay reports an error, yet the two
bandwidth-stage commands are still issued — the failed netem validation
does not skip the other stages. -/
theorem config_bad_delay_still_issues_bw_cmds :
    config "h1" "h1-eth0" "noqueue" (some 10) (some (PyVal.num (-1))) none none
      false true true 0 false false none false false none =
      .ok ⟨"ethtool -K h1-eth0 gro off tx on rx on", true,
        ["%s qdisc add dev %s root handle 5:0 htb default 1",
         "%s class add dev %s parent 5:0 classid 5:1 htb rate 10.000000Mbit burst 15k"],
        some " parent 5:1 ", ["Negative delay -1 \n"]⟩ ∧
    (["%s qdisc add dev %s root handle 5:0 htb default 1",
      "%s class add dev %s parent 5:0 classid 5:1 htb rate 10.000000Mbit burst 15k"] :
        List String).isEmpty = false ∧
    (["Negative delay -1 \n"] : List String).isEmpty = false := by
  refine ⟨by decide, rfl, rfl⟩

/-- C3 (amended): when a configure call that reaches the shaping stages
has a negative delay, a negative jitter, or a loss outside `[0, 100]`, an
error is reported and the entire netem stage (delay, jitter, loss and
queue limit together) is skipped; the clear and bandwidth/ECN/RED stage
commands are still issued. -/
theorem config_netem_error_skips_netem_stage
    (nodeName intfName tcoutput : String) (bw : Option ℚ)
    (delay jitter : Option PyVal) (loss : Option ℚ) (gro txo rxo : Bool)
    (speedup : ℚ) (use_hfsc use_tbf : Bool) (latency_ms : Option ℚ)
    (enable_ecn enable_red : Bool) (max_queue_size : Option ℤ)
    (r : ConfigResult)
    (hne : earlyReturnB bw delay loss max_queue_size = false)
    (hbad : (optNegB delay || optNegB jitter || lossBadB loss) = true)
    (hok : config nodeName intfName tcoutput bw delay jitter loss gro txo rxo
      speedup use_hfsc use_tbf latency_ms enable_ecn enable_red max_queue_size
      = .ok r) :
    r.errs.isEmpty = false ∧
    ∃ bres, bwCmds nodeName bw speedup use_hfsc use_tbf latency_ms enable_ecn
        enable_red = .ok bres ∧
      r.cmds = clearCmds tcoutput ++ bres.cmds := by
  unfold config at hok
  rw [hne] at hok
  simp only [Bool.false_eq_true, if_false] at hok
  rcases hbw : bwCmds nodeName bw speedup use_hfsc use_tbf latency_ms enable_ecn
      enable_red with e | bres <;> rw [hbw] at hok
  · cases hok
  · simp only [Except.ok.injEq] at hok
    subst hok
    have hd : (delayCmds bres.parent delay jitter loss max_queue_size).cmds = [] ∧
        (delayCmds bres.parent delay jitter loss max_queue_size).errs.isEmpty
          = false := by
      by_cases h1 : optNegB delay = true
      · simp [delayCmds, h1]
      · rw [Bool.not_eq_true] at h1
        by_cases h2 : optNegB jitter = true
        · simp [delayCmds, h1, h2]
        · rw [Bool.not_eq_true] at h2
          by_cases h3 : lossBadB loss = true
          · simp [delayCmds, h1, h2, h3]
          · rw [Bool.not_eq_true] at h3
            rw [h1, h2, h3] at hbad
            cases hbad
    refine ⟨?_, bres, rfl, ?_⟩
    · dsimp only
      rcases hc : (delayCmds bres.parent delay jitter loss max_queue_size).errs
        with _ | ⟨a, t⟩
      · rw [hc] at hd
        cases hd.2
      · exact isEmpty_append_cons _ _ _
    · dsimp only
      rw [hd.1, List.append_nil]

/-- Witness for C3 (amended): bandwidth 10 with delay −1. -/
theorem config_netem_error_skips_netem_stage_witness :
    earlyReturnB (some 10) (some (PyVal.num (-1))) none none = false ∧
    (optNegB (some (PyVal.num (-1))) || optNegB none || lossBadB none) = true ∧
    config "h1" "h1-eth0" "noqueue" (some 10) (some (PyVal.num (-1))) none none
      false true true 0 false false none false false none =
      .ok ⟨"ethtool -K h1-eth0 gro off tx on rx on", true,
        ["%s qdisc add dev %s root handle 5:0 htb default 1",
         "%s class add dev %s parent 5:0 classid 5:1 htb rate 10.000000Mbit burst 15k"],
        some " parent 5:1 ", ["Negative delay -1 \n"]⟩ ∧
    ((⟨"ethtool -K h1-eth0 gro off tx on rx on", true,
        ["%s qdisc add dev %s root handle 5:0 htb default 1",
         "%s class add dev %s parent 5:0 classid 5:1 htb rate 10.000000Mbit burst 15k"],
        some " parent 5:1 ", ["Negative delay -1 \n"]⟩ : ConfigResult).errs.isEmpty
          = false ∧
      ∃ bres, bwCmds "h1" (some 10) 0 false false none false false = .ok bres ∧
        (⟨"ethtool -K h1-eth0 gro off tx on rx on", true,
          ["%s qdisc add dev %s root handle 5:0 htb default 1",
           "%s class add dev %s parent 5:0 classid 5:1 htb rate 10.000000Mbit burst 15k"],
          some " parent 5:1 ", ["Negative delay -1 \n"]⟩ : ConfigResult).cmds =
          clearCmds "noqueue" ++ bres.cmds) :=
  ⟨by decide, by decide, by decide,
    config_netem_error_skips_netem_stage "h1" "h1-eth0" "noqueue" (some 10)
      (some (PyVal.num (-1))) none none false true true 0 false false none false
      false none
      ⟨"ethtool -K h1-eth0 gro off tx on rx on", true,
        ["%s qdisc add dev %s root handle 5:0 htb default 1",
         "%s class add dev %s parent 5:0 classid 5:1 htb rate 10.000000Mbit burst 15k"],
        some " parent 5:1 ", ["Negative delay -1 \n"]⟩
      (by decide) (by decide) (by decide)⟩

/-- Counterexample for C6 as stated: a configure call with none of
bandwidth, delay, loss or max queue size still issues one command to the
node — the ethtool offload command — so the call does not leave the node
untouched. -/
theorem config_noop_call_still_issues_ethtool :
    (config "h1" "h1-eth0" "noqueue" none none none none false true true 0 false
      false none false false none).map issuedNodeCmds =
      .ok ["ethtool -K h1-eth0 gro off tx on rx on"] ∧
    (["ethtool -K h1-eth0 gro off tx on rx on"] : List String).isEmpty = false := by
  refine ⟨by decide, rfl⟩

/-- C6 (amended): a configure call that supplies none of bandwidth,
delay, loss, or max queue size returns immediately after the offload
command, without querying the qdisc state and without issuing any tc
shaping command; the result carries no parent handle. -/
theorem config_early_return_shape
    (nodeName intfName tcoutput : String) (delay jitter : Option PyVal)
    (loss : Option ℚ) (gro txo rxo : Bool) (speedup : ℚ)
    (use_hfsc use_tbf : Bool) (latency_ms : Option ℚ)
    (enable_ecn enable_red : Bool)
    (hd : optTruthy delay = false) (hl : lossTruthy loss = false) :
    config nodeName intfName tcoutput none delay jitter loss gro txo rxo speedup
      use_hfsc use_tbf latency_ms enable_ecn enable_red none =
      .ok ⟨ethtoolCmd intfName gro txo rxo, false, [], none, []⟩ := by
  have h : earlyReturnB none delay loss none = true := by
    simp [earlyReturnB, hd, hl]
  simp [config, h]

/-- Witness for C6 (amended). -/
theorem config_early_return_shape_witness :
    optTruthy none = false ∧ lossTruthy none = false ∧
    config "h1" "h1-eth0" "noqueue" none none none none false true true 0 false
      false none false false none =
      .ok ⟨ethtoolCmd "h1-eth0" false true true, false, [], none, []⟩ :=
  ⟨rfl, rfl,
    config_early_return_shape "h1" "h1-eth0" "noqueue" none none none false true
      true 0 false false none false false rfl rfl⟩

/-- C7: a configure call that reaches the shaping stages issues the
root-discipline deletion first exactly when the queried qdisc state is not
the kernel pristine default; on a pristine interface no root-deletion
command appears anywhere in the issued commands. -/
theorem config_root_deletion_on_nonpristine
    (nodeName intfName tcoutput : String) (bw : Option ℚ)
    (delay jitter : Option PyVal) (loss : Option ℚ) (gro txo rxo : Bool)
    (speedup : ℚ) (use_hfsc use_tbf : Bool) (latency_ms : Option ℚ)
    (enable_ecn enable_red : Bool) (max_queue_size : Option ℤ)
    (r : ConfigResult)
    (hne : earlyReturnB bw delay loss max_queue_size = false)
    (hok : config nodeName intfName tcoutput bw delay jitter loss gro txo rxo
      speedup use_hfsc use_tbf latency_ms enable_ecn enable_red max_queue_size
      = .ok r) :
    (pristineB tcoutput = false → r.cmds.head? = some delRootCmd) ∧
    (pristineB tcoutput = true → r.cmds.contains delRootCmd = false) := by
  unfold config at hok
  rw [hne] at hok
  simp only [Bool.false_eq_true, if_false] at hok
  rcases hbw : bwCmds nodeName bw speedup use_hfsc use_tbf latency_ms enable_ecn
      enable_red with e | bres <;> rw [hbw] at hok
  · cases hok
  · simp only [Except.ok.injEq] at hok
    subst hok
    constructor <;> intro hp
    · simp [clearCmds, hp]
    · simp only [clearCmds, hp, if_true, List.nil_append]
      rw [contains_eq_false_iff]
      intro hmem
      rcases List.mem_append.mp hmem with hmem | hmem
      · exact bwCmds_no_delRoot _ _ _ _ _ _ _ _ _ hbw _ hmem rfl
      · exact delayCmds_no_delRoot _ _ _ _ _ _ hmem rfl

/-- Witness for C7: bandwidth 10 on a pristine interface. -/
theorem config_root_deletion_on_nonpristine_witness :
    earlyReturnB (some 10) none none none = false ∧
    config "h1" "h1-eth0" "noqueue" (some 10) none none none false true true 0
      false false none false false none =
      .ok ⟨"ethtool -K h1-eth0 gro off tx on rx on", true,
        ["%s qdisc add dev %s root handle 5:0 htb default 1",
         "%s class add dev %s parent 5:0 classid 5:1 htb rate 10.000000Mbit burst 15k"],
        some " parent 5:1 ", []⟩ ∧
    ((pristineB "noqueue" = false →
        (["%s qdisc add dev %s root handle 5:0 htb default 1",
          "%s class add dev %s parent 5:0 classid 5:1 htb rate 10.000000Mbit burst 15k"] :
            List String).head? = some delRootCmd) ∧
      (pristineB "noqueue" = true →
        (["%s qdisc add dev %s root handle 5:0 htb default 1",
          "%s class add dev %s parent 5:0 classid 5:1 htb rate 10.000000Mbit burst 15k"] :
            List String).contains delRootCmd = false)) :=
  ⟨by decide, by decide,
    config_root_deletion_on_nonpristine "h1" "h1-eth0" "noqueue" (some 10) none
      none none false true true 0 false false none false false none
      ⟨"ethtool -K h1-eth0 gro off tx on rx on", true,
        ["%s qdisc add dev %s root handle 5:0 htb default 1",
         "%s class add dev %s parent 5:0 classid 5:1 htb rate 10.000000Mbit burst 15k"],
        some " parent 5:1 ", []⟩ (by decide) (by decide)⟩

/-- C4: evaluation of `Link.delete` on a fresh link between two empty
nodes.  The `return result` line of the Linux `Intf.delete` names an
unbound variable, so the first interface deletion raises NameError after
its own side effects: node 1 loses its entry and interface 1 has its
back-reference cleared, but `Link.delete` aborts right there — node 2
retains its mapping entry for the interface name that was used,
interface 2 still holds its link back-reference, and neither Link field
is nulled. -/
theorem link_delete_aborts_on_name_error :
    linkDelete (linkMake ⟨[]⟩ ⟨[]⟩ "h1-eth0" "h2-eth0") =
      (⟨⟨[]⟩, ⟨["h2-eth0"]⟩, some ⟨"h1-eth0", none⟩, some ⟨"h2-eth0", some ()⟩⟩,
        some ⟨"h1-eth0", none⟩, some ⟨"h2-eth0", some ()⟩,
        some "NameError: result is not defined") ∧
    (linkDelete (linkMake ⟨[]⟩ ⟨[]⟩ "h1-eth0" "h2-eth0")).1.node2.intfs.contains
      "h2-eth0" = true ∧
    (linkDelete (linkMake ⟨[]⟩ ⟨[]⟩ "h1-eth0" "h2-eth0")).1.intf2 =
      some ⟨"h2-eth0", some ()⟩ ∧
    (linkDelete (linkMake ⟨[]⟩ ⟨[]⟩ "h1-eth0" "h2-eth0")).2.2.2 =
      some "NameError: result is not defined" := by
  refine ⟨by decide, by decide, by decide, by decide⟩

/-- C5: evaluation of the routing-domain allocator.  Allocation from the
initial index 1 hands out strictly increasing ids 1..254 and then the
allocation that would use id 255 — the 255th attempt, not the 256th —
aborts before creating its anchor pair interface. -/
theorem rdomain_alloc_aborts_at_255 :
    rdomainAlloc 254 = some (254, 255) ∧
    rdomainAlloc 255 = none ∧
    rdomainIds 1 300 = (List.range 254).map (fun i => i + 1) ∧
    strictlyIncreasing (rdomainIds 1 300) = true := by
  set_option maxRecDepth 4000 in decide

/-- C8: for every loss value in `[0, 100]`, the synthesized netem command
carries the loss value formatted with exactly five digits after the
decimal point; for a loss below 0 or above 100 no netem command is
issued. -/
theorem delayCmds_loss_five_decimal_format (parent : String)
    (delay jitter : Option PyVal) (l : ℚ) (max_queue_size : Option ℤ)
    (hd : optNegB delay = false) (hj : optNegB jitter = false) :
    if 0 ≤ l ∧ l ≤ 100 then
      ∃ pre post,
        (delayCmds parent delay jitter (some l) max_queue_size).cmds =
          [pre ++ (("loss " ++ fmtFixed l 5 ++ " ") ++ post)] ∧
        ∃ ip ds, fmtFixed l 5 = ip ++ ("." ++ String.mk ds) ∧ ds.length = 5
    else (delayCmds parent delay jitter (some l) max_queue_size).cmds = [] := by
  by_cases hin : 0 ≤ l ∧ l ≤ 100
  · rw [if_pos hin]
    have hl1 : ¬l < 0 := not_lt.mpr hin.1
    have hl2 : ¬l > 100 := not_lt.mpr hin.2
    have hlb : lossBadB (some l) = false := by simp [lossBadB, hl1, hl2]
    have h6 : 6 ≤ (netemArgs delay jitter (some l) max_queue_size).length := by
      unfold netemArgs
      rw [strLen_append, strLen_append]
      have hlo : 6 ≤ (lossPart (some l)).length := by
        rw [show lossPart (some l) = "loss " ++ fmtFixed l 5 ++ " " from rfl,
          strLen_append, strLen_append]
        have ha : ("loss " : String).length = 5 := by decide
        have hb : (" " : String).length = 1 := by decide
        omega
      omega
    have hargs : netemArgs delay jitter (some l) max_queue_size ≠ "" := by
      intro hemp
      rw [hemp] at h6
      exact absurd h6 (by decide)
    refine ⟨("%s qdisc add dev %s " ++ parent ++ " handle 10: netem ") ++
      (delayPart delay ++ jitterPart jitter), limitPart max_queue_size,
      ?_, fmtFixed_decomposition l 5⟩
    simp only [delayCmds, hd, hj, hlb, Bool.false_eq_true, if_false]
    rw [if_pos hargs]
    simp only [netemCmd, netemArgs,
      show lossPart (some l) = "loss " ++ fmtFixed l 5 ++ " " from rfl,
      String.append_assoc]
  · rw [if_neg hin]
    have hlb : lossBadB (some l) = true := by
      rw [not_and_or] at hin
      rcases hin with h | h
      · have hlt : l < 0 := not_le.mp h
        simp [lossBadB, hlt, ne_of_lt hlt]
      · have hgt : (100 : ℚ) < l := not_le.mp h
        have hne0 : l ≠ 0 := ne_of_gt (lt_trans (by norm_num) hgt)
        simp [lossBadB, hgt, hne0]
    simp [delayCmds, hd, hj, hlb]

/-- Witness for C8: loss 1 attached at ` parent 5:1 `. -/
theorem delayCmds_loss_five_decimal_format_witness :
    optNegB none = false ∧ optNegB none = false ∧
    (if (0 : ℚ) ≤ 1 ∧ (1 : ℚ) ≤ 100 then
      ∃ pre post,
        (delayCmds " parent 5:1 " none none (some 1) none).cmds =
          [pre ++ (("loss " ++ fmtFixed 1 5 ++ " ") ++ post)] ∧
        ∃ ip ds, fmtFixed 1 5 = ip ++ ("." ++ String.mk ds) ∧ ds.length = 5
    else (delayCmds " parent 5:1 " none none (some 1) none).cmds = []) :=
  ⟨rfl, rfl,
    delayCmds_loss_five_decimal_format " parent 5:1 " none none 1 none rfl rfl⟩

theorem all_true_of_const {a : Type} (l : List a) :
    (l.all fun _ => true) = true := by
  induction l with
  | nil => rfl
  | cons x t ih => simp [List.all_cons, ih]

theorem killLoop_no_callback (pattern : String) (polls : List String) :
    ∀ e ∈ killLoop pattern polls, e.isCallback = false := by
  induction polls with
  | nil =>
    intro e he
    simp only [killLoop, List.mem_singleton] at he
    subst he
    rfl
  | cons p rest ih =>
    intro e he
    by_cases hp : p = ""
    · simp [killLoop, hp] at he
      subst he
      rfl
    · simp [killLoop, hp] at he
      rcases he with rfl | rfl | he
      · rfl
      · rfl
      · exact ih e he

theorem cleanupStages_all_cmd (env : CleanEnv) :
    (cleanupStages env).all (fun e => !e.isCallback) = true := by
  simp [cleanupStages, iplinkClean, killprocs, List.all_append, List.all_map,
    Function.comp, CEvent.isCallback, all_true_of_const]
  refine ⟨?_, ?_, ?_, ?_⟩
  · rintro x x1 hx1 hne rfl
    rfl
  · exact fun x hx => killLoop_no_callback _ _ x hx
  · exact fun x hx => killLoop_no_callback _ _ x hx
  · exact fun x hx => killLoop_no_callback _ _ x hx

/-- C9: registering the same cleanup callback a second time leaves the
callback list unchanged; a cleanup run is the stage events followed by all
registered callbacks, in registration order, at the very end of the run;
no stage event is a callback invocation; and every callback occurs in the
trace exactly as often as it occurs in the registration list. -/
theorem cleanup_callback_registration_and_invocation :
    (∀ (callbacks : List ℕ) (cb : ℕ),
        addCleanupCallback (addCleanupCallback callbacks cb) cb =
          addCleanupCallback callbacks cb) ∧
    (∀ (env : CleanEnv) (callbacks : List ℕ),
        cleanupRun env callbacks =
          cleanupStages env ++ callbacks.map CEvent.callback) ∧
    (∀ env : CleanEnv, (cleanupStages env).all (fun e => !e.isCallback) = true) ∧
    (∀ (env : CleanEnv) (callbacks : List ℕ) (cb : ℕ),
        (cleanupRun env callbacks).count (CEvent.callback cb) =
          callbacks.count cb) := by
  refine ⟨?_, fun env callbacks => rfl, cleanupStages_all_cmd, ?_⟩
  · intro callbacks cb
    unfold addCleanupCallback
    by_cases h : cb ∈ callbacks
    · simp [h]
    · simp [h]
  · intro env callbacks cb
    rw [show cleanupRun env callbacks =
        cleanupStages env ++ callbacks.map CEvent.callback from rfl,
      List.count_append]
    have h0 : (cleanupStages env).count (CEvent.callback cb) = 0 := by
      rw [List.count_eq_zero]
      intro hmem
      have hall := cleanupStages_all_cmd env
      rw [List.all_eq_true] at hall
      have h2 := hall _ hmem
      simp [CEvent.isCallback] at h2
    rw [h0, Nat.zero_add]
    exact List.count_map_of_injective callbacks CEvent.callback
      (fun a b hab => by cases hab; rfl) cb

/-- Counterexample for C10 as stated: with a validated bandwidth of 0, the
token-bucket discipline and no explicit latency, `bwCmds` does not
complete — the derived latency `15 * 8 / bw` raises `ZeroDivisionError`. -/
theorem bwCmds_tbf_zero_bw_raises :
    bwCmds "h1" (some 0) 0 false true none false false =
      .error "ZeroDivisionError" := by
  decide

/-- C10 (amended): on every validated bandwidth and discipline choice with
no explicit latency bound, `bwCmds` returns a result without raising,
except in the single case of the token-bucket discipline with bandwidth 0,
where the derived latency divides by zero. -/
theorem bwCmds_total_on_validated_inputs (nodeName : String) (b : ℚ)
    (use_hfsc use_tbf enable_ecn enable_red : Bool)
    (h0 : 0 ≤ b) (h1 : b ≤ bwParamMax) :
    isOkB (bwCmds nodeName (some b) 0 use_hfsc use_tbf none enable_ecn
        enable_red) =
      !(!use_hfsc && (use_tbf && decide (b = 0))) := by
  have hnot : ¬(b ≠ 0 ∧ (b < 0 ∨ b > bwParamMax)) := by
    rintro ⟨hb0, hb | hb⟩
    · exact absurd h0 (not_le.mpr hb)
    · exact absurd h1 (not_le.mpr hb)
  have heff : effBw nodeName 0 b = b := by simp [effBw]
  simp only [bwCmds, if_neg hnot, heff]
  cases use_hfsc
  · cases use_tbf
    · simp [bwCoreCmds, isOkB]
    · by_cases hb : b = 0
      · simp [bwCoreCmds, hb, isOkB]
      · simp [bwCoreCmds, hb, isOkB]
  · simp [bwCoreCmds, isOkB]

/-- Witness for C10 (amended): the token-bucket case at bandwidth 0. -/
theorem bwCmds_total_on_validated_inputs_witness :
    (0 : ℚ) ≤ 0 ∧ (0 : ℚ) ≤ bwParamMax ∧
    isOkB (bwCmds "h1" (some 0) 0 false true none false false) =
      !(!false && (true && decide ((0 : ℚ) = 0))) :=
  ⟨le_refl 0, by norm_num [bwParamMax],
    bwCmds_total_on_validated_inputs "h1" 0 false true false false (le_refl 0)
      (by norm_num [bwParamMax])⟩

end Mininet
